import Mathlib

/-!
Verification of the dashboard aggregation engine of the health-tracker
repository (`app/routers/data.py`), against its natural-language
specification.

The daily records table (`app/database/dailyData.py`) is embedded as a list
of `DailyData` structures.  Calendar dates are embedded as natural numbers
counting days since 0000-03-01 of the proleptic Gregorian calendar (the era
origin of the standard civil-from-days algorithm); day 0 lies before every
date a Python `datetime.date` can represent, so a backward scan that walks
past day 0 corresponds to a scan that has walked past every representable
date.  Nullable SQL columns are embedded as `Option` values.
-/

/-- One row of the `daily_data` table.  Matches the columns declared in
`app/database/dailyData.py`, plus `physio_active`.
Modelled from the spec: the `physio_active` column is referenced throughout
`app/routers/data.py` but its declaration is absent from the copy of
`dailyData.py` in the repository snapshot; the spec's data model lists
"physio active flag" as an optional boolean, which is what the router code
assumes. -/
structure DailyData where
  date : Nat
  calories_green_goal : Option Int := none
  calories_green_actual : Option Int := none
  calories_yellow_goal : Option Int := none
  calories_yellow_actual : Option Int := none
  calories_orange_goal : Option Int := none
  calories_orange_actual : Option Int := none
  steps_goal : Option Int := none
  steps_actual : Option Int := none
  cardio_high_intensity_minutes : Option Int := none
  cardio_low_intensity_minutes : Option Int := none
  strength_workout_type : Option String := none
  physio_active : Option Bool := none
  physio_completed : Option Bool := none
  weight_kg : Option ℚ := none
deriving DecidableEq

/-- A row with the given date and every nullable column NULL. -/
def emptyRow (d : Nat) : DailyData := { date := d }

/-- Point lookup by date: `db.query(...).filter(DailyData.date == d).first()`.
Dates are the primary key, so at most one row matches. -/
def lookupDate (db : List DailyData) (d : Nat) : Option DailyData :=
  db.find? (fun r => r.date == d)

/-- `get_7_days_before_date` from `data.py`: returns `(start, end)` where
`end` is yesterday and `start` is 6 days before yesterday. -/
def get_7_days_before_date (today : Nat) : Nat × Nat :=
  let yesterday := today - 1
  let start_date := yesterday - 6
  (start_date, yesterday)

/-- Whether a row's date lies in the inclusive range `[s, e]`
(`DailyData.date.between(s, e)`). -/
def inRange (s e : Nat) (r : DailyData) : Bool :=
  decide (s ≤ r.date) && decide (r.date ≤ e)

/-- One step of SQL `SUM` aggregation: NULL inputs are skipped, and the
accumulator stays NULL until the first non-NULL input. -/
def sumStep (acc : Option Int) (v : Option Int) : Option Int :=
  match v with
  | none => acc
  | some x => some (acc.getD 0 + x)

/-- `db.query(func.sum(f)).filter(date.between(s, e)).scalar()`: SQL `SUM`
of the column selected by `f` over rows dated within `[s, e]`; `none` when
there is no non-NULL value in range. -/
def sqlSum (db : List DailyData) (f : DailyData → Option Int) (s e : Nat) :
    Option Int :=
  ((db.filter (inRange s e)).map f).foldl sumStep none

/-- Earliest stored date:
`db.query(DailyData.date).order_by(DailyData.date).first()`. -/
def minDate : List DailyData → Option Nat
  | [] => none
  | r :: rest =>
    some (match minDate rest with
          | none => r.date
          | some m => min r.date m)

/-- The sum, over rows dated within `[s, e]`, of the column selected by `f`
with NULL read as 0.  This is the "missing values count as zero" reading of
the window total that the spec describes. -/
def windowSumZ (db : List DailyData) (f : DailyData → Option Int) (s e : Nat) :
    Int :=
  ((db.filter (inRange s e)).map (fun r => (f r).getD 0)).sum

/-! ### Calendar rendering

Python formats dates with `strftime('%Y-%m-%d')`, `strftime('%A')`,
`calendar.month_name` and an ordinal-suffix rule (`get_missing_data`,
lines 204-227 of `data.py`).  We embed the proleptic Gregorian conversion
from a day number (days since 0000-03-01) to a civil `(year, month, day)`
triple using the standard civil-from-days algorithm, and render strings
character by character. -/

/-- A civil calendar date. -/
structure Civil where
  year : Nat
  month : Nat
  day : Nat
deriving DecidableEq

/-- Convert a day number (days since 0000-03-01) to a civil date, by the
standard proleptic-Gregorian algorithm. -/
def civilFromDays (z : Nat) : Civil :=
  let era := z / 146097
  let doe := z % 146097
  let yoe := (doe - doe / 1460 + doe / 36524 - doe / 146096) / 365
  let y := yoe + era * 400
  let doy := doe - (365 * yoe + yoe / 4 - yoe / 100)
  let mp := (5 * doy + 2) / 153
  let d := doy - (153 * mp + 2) / 5 + 1
  let m := if mp < 10 then mp + 3 else mp - 9
  ⟨if m ≤ 2 then y + 1 else y, m, d⟩

/-- English weekday names, Monday first.  Day 0 (0000-03-01) was a
Wednesday, so day `z` has weekday index `(z + 2) % 7` in this list. -/
def weekdayNames : List String :=
  ["Monday", "Tuesday", "Wednesday", "Thursday", "Friday", "Saturday", "Sunday"]

/-- `d.strftime('%A')`: the full English weekday name of day number `z`. -/
def weekdayName (z : Nat) : String :=
  weekdayNames.getD ((z + 2) % 7) ""

/-- `calendar.month_name`: index 0 is the empty string, then the English
month names. -/
def monthNames : List String :=
  ["", "January", "February", "March", "April", "May", "June", "July",
   "August", "September", "October", "November", "December"]

/-- The decimal digit character for `n % 10`. -/
def digitChar (n : Nat) : Char :=
  Char.ofNat (48 + n % 10)

/-- Inverse of `digitChar` on actual digit characters. -/
def parseDigit (c : Char) : Option Nat :=
  if c = '0' then some 0 else if c = '1' then some 1
  else if c = '2' then some 2 else if c = '3' then some 3
  else if c = '4' then some 4 else if c = '5' then some 5
  else if c = '6' then some 6 else if c = '7' then some 7
  else if c = '8' then some 8 else if c = '9' then some 9
  else none

/-- Fuel-driven big-endian decimal digit extraction: prepends the digits of
`n` to `acc`. -/
def natDigitsAuxBE : Nat → Nat → List Nat → List Nat
  | 0, _, acc => acc
  | fuel + 1, n, acc =>
    if n < 10 then n :: acc
    else natDigitsAuxBE fuel (n / 10) (n % 10 :: acc)

/-- The big-endian decimal digits of `n` (with `[0]` for 0). -/
def natDigitsBE (n : Nat) : List Nat :=
  natDigitsAuxBE (n + 1) n []

/-- The decimal rendering of `n` as characters, as Python `str(n)`. -/
def natChars (n : Nat) : List Char :=
  (natDigitsBE n).map digitChar

/-- Zero-padded decimal rendering to width `k`, as Python `'%0kd' % n`. -/
def padChars (k n : Nat) : List Char :=
  List.replicate (k - (natChars n).length) '0' ++ natChars n

/-- `d.strftime('%Y-%m-%d')` for day number `z`. -/
def isoChars (z : Nat) : List Char :=
  let c := civilFromDays z
  padChars 4 c.year ++ '-' :: padChars 2 c.month ++ '-' :: padChars 2 c.day

/-- The ISO date string of day number `z`. -/
def isoString (z : Nat) : String :=
  ⟨isoChars z⟩

/-- The ordinal-suffix rule of `format_date` in `get_missing_data`:
`th` for 10..20 mod 100, else by last digit. -/
def ordinalSuffix (day_num : Nat) : String :=
  if 10 ≤ day_num % 100 ∧ day_num % 100 ≤ 20 then "th"
  else if day_num % 10 = 1 then "st"
  else if day_num % 10 = 2 then "nd"
  else if day_num % 10 = 3 then "rd"
  else "th"

/-- `format_date` from `get_missing_data`: renders day number `z` as
`"{day_name}, {day_num}{suffix} {month_name_str}"`. -/
def format_date (z : Nat) : String :=
  let c := civilFromDays z
  let day_name := weekdayName z
  let month_name_str := monthNames.getD c.month ""
  day_name ++ ", " ++ ⟨natChars c.day⟩ ++ ordinalSuffix c.day ++ " "
    ++ month_name_str

/-- One entry of the `missing_days` wire format. -/
structure MissingEntry where
  date : String
  display_name : String
deriving DecidableEq

/-- `sorted(list(set(missing_dates)))`: deduplicate and sort ascending. -/
def sortedMissing (dates : List Nat) : List Nat :=
  List.insertionSort (· ≤ ·) dates.dedup

/-- The formatting tail of `get_missing_data`: deduplicate, sort, and render
each date as its wire-format entry. -/
def formatMissing (dates : List Nat) : List MissingEntry :=
  (sortedMissing dates).map (fun z => ⟨isoString z, format_date z⟩)

/-- Split a character list on `'-'` separators (Python `s.split('-')`). -/
def splitOnDash : List Char → List (List Char)
  | [] => [[]]
  | c :: rest =>
    if c = '-' then [] :: splitOnDash rest
    else
      match splitOnDash rest with
      | [] => [[c]]
      | g :: gs => (c :: g) :: gs

/-- One step of decimal parsing: shift the accumulator and add the next
digit; fail on a non-digit. -/
def parseStep (acc : Option Nat) (c : Char) : Option Nat :=
  match acc, parseDigit c with
  | some v, some d => some (10 * v + d)
  | _, _ => none

/-- Parse a nonempty all-digit character list as a decimal natural. -/
def parseNatChars (l : List Char) : Option Nat :=
  match l with
  | [] => none
  | _ :: _ => l.foldl parseStep (some 0)

/-- Decode an ISO `YYYY-MM-DD` string into a civil date. -/
def parseIsoDate (s : String) : Option Civil :=
  match splitOnDash s.data with
  | [a, b, c] =>
    match parseNatChars a, parseNatChars b, parseNatChars c with
    | some y, some m, some d => some ⟨y, m, d⟩
    | _, _, _ => none
  | _ => none

/-! ### Steps dashboard (`get_steps_dashboard_data`) -/

/-- Yesterday's steps row, projected to `(actual, goal)`; both components
are `none` when no row exists for yesterday. -/
def yesterdaySteps (db : List DailyData) (yesterday : Nat) :
    Option Int × Option Int :=
  match lookupDate db yesterday with
  | none => (none, none)
  | some r => (r.steps_actual, r.steps_goal)

/-- `last_7_avg` (or `prev_7_avg`): the SQL window sum divided by 7, with a
NULL sum read as 0 (`last_7_sum / 7 if last_7_sum is not None else 0`). -/
def stepsWindowAvg (db : List DailyData) (s e : Nat) : ℚ :=
  match sqlSum db (fun r => r.steps_actual) s e with
  | none => 0
  | some v => (v : ℚ) / 7

/-- The Python truthiness filter on a reported average:
`float(avg) if avg else None`. -/
def reportAvg (avg : ℚ) : Option ℚ :=
  if avg = 0 then none else some avg

/-- The `averages` entry of the steps dashboard: reported last-7-day and
previous-7-day averages. -/
def stepsAverages (db : List DailyData) (today : Nat) : Option ℚ × Option ℚ :=
  let (last_7_start, last_7_end) := get_7_days_before_date today
  let (prev_7_start, prev_7_end) := get_7_days_before_date last_7_start
  (reportAvg (stepsWindowAvg db last_7_start last_7_end),
   reportAvg (stepsWindowAvg db prev_7_start prev_7_end))

/-- The `highest` entry of the steps dashboard: the row with maximal
non-NULL `steps_actual`, projected to `(steps, date)`; `(none, none)` when
no row has a non-NULL actual. -/
def highestSteps (db : List DailyData) : Option Int × Option Nat :=
  let best := (db.filter (fun r => r.steps_actual.isSome)).foldl
    (fun (acc : Option DailyData) r =>
      match acc with
      | none => some r
      | some b => if b.steps_actual.getD 0 < r.steps_actual.getD 0
                  then some r else acc) none
  match best with
  | none => (none, none)
  | some r => (r.steps_actual, some r.date)

/-- Whether a steps row qualifies for the streak: both fields non-NULL and
`actual >= goal`. -/
def stepsQual (r : DailyData) : Bool :=
  match r.steps_actual, r.steps_goal with
  | some a, some g => decide (g ≤ a)
  | _, _ => false

/-- The steps current-streak backward scan.  `stepsCurGo db e` scans the
dates `e - 1, e - 2, ...`: the loop of lines 337-350 of `data.py` with
`check_date = e - 1`.  At `e = 0` the probe date lies before every
representable date, where no row exists, so the loop's missing-record
test stops the scan. -/
def stepsCurGo (db : List DailyData) : Nat → Nat
  | 0 => 0
  | e + 1 =>
    match lookupDate db e with
    | none => 0
    | some r => if stepsQual r then 1 + stepsCurGo db e else 0

/-- `current_streak` of the steps dashboard: backward scan anchored at
yesterday. -/
def stepsCurrentStreak (db : List DailyData) (yesterday : Nat) : Nat :=
  stepsCurGo db (yesterday + 1)

/-- State of the forward longest-streak scan: best streak so far, its end
date, the running count, and the previously seen date. -/
structure FwdState where
  longest : Nat
  end_date : Option Nat
  run : Nat
  prev : Option Nat
deriving DecidableEq

/-- Initial state of a forward longest-streak scan. -/
def fwdInit : FwdState := ⟨0, none, 0, none⟩

/-- One iteration of the steps longest-streak loop (lines 361-378 of
`data.py`): reset the running count at a date gap of more than one day,
then classify the row. -/
def stepsFwdStep (st : FwdState) (r : DailyData) : FwdState :=
  let c := match st.prev with
    | some p => if 1 < r.date - p then 0 else st.run
    | none => st.run
  if stepsQual r then
    let c' := c + 1
    if st.longest < c' then ⟨c', some r.date, c', some r.date⟩
    else ⟨st.longest, st.end_date, c', some r.date⟩
  else ⟨st.longest, st.end_date, 0, some r.date⟩

/-- `longest_streak` of the steps dashboard: forward scan over the full
date-ordered history. -/
def stepsLongestStreak (db : List DailyData) : Nat × Option Nat :=
  let st := db.foldl stepsFwdStep fwdInit
  (st.longest, st.end_date)

/-! ### Cardio dashboard (`get_cardio_dashboard_data`) -/

/-- `last_7_low_total`: SQL sum of low-intensity minutes over the last-7-day
window, with `... .scalar() or 0`. -/
def cardioLow7Total (db : List DailyData) (today : Nat) : Int :=
  let (s, e) := get_7_days_before_date today
  (sqlSum db (fun r => r.cardio_low_intensity_minutes) s e).getD 0

/-- `last_7_high_total`: SQL sum of high-intensity minutes over the
last-7-day window, with `... .scalar() or 0`. -/
def cardioHigh7Total (db : List DailyData) (today : Nat) : Int :=
  let (s, e) := get_7_days_before_date today
  (sqlSum db (fun r => r.cardio_high_intensity_minutes) s e).getD 0

/-- Whether a cardio row qualifies: total minutes (NULL as 0) at least 15. -/
def cardioQual (r : DailyData) : Bool :=
  decide (15 ≤ r.cardio_low_intensity_minutes.getD 0
    + r.cardio_high_intensity_minutes.getD 0)

/-- The cardio current-streak backward scan (lines 421-436 of `data.py`),
indexed as in `stepsCurGo`. -/
def cardioCurGo (db : List DailyData) : Nat → Nat
  | 0 => 0
  | e + 1 =>
    match lookupDate db e with
    | none => 0
    | some r => if cardioQual r then 1 + cardioCurGo db e else 0

/-- `current_streak` of the cardio dashboard. -/
def cardioCurrentStreak (db : List DailyData) (yesterday : Nat) : Nat :=
  cardioCurGo db (yesterday + 1)

/-- One iteration of the cardio longest-streak loop (lines 447-463 of
`data.py`). -/
def cardioFwdStep (st : FwdState) (r : DailyData) : FwdState :=
  let c := match st.prev with
    | some p => if 1 < r.date - p then 0 else st.run
    | none => st.run
  if cardioQual r then
    let c' := c + 1
    if st.longest < c' then ⟨c', some r.date, c', some r.date⟩
    else ⟨st.longest, st.end_date, c', some r.date⟩
  else ⟨st.longest, st.end_date, 0, some r.date⟩

/-- `longest_streak` of the cardio dashboard. -/
def cardioLongestStreak (db : List DailyData) : Nat × Option Nat :=
  let st := db.foldl cardioFwdStep fwdInit
  (st.longest, st.end_date)

/-! ### Strength dashboard (`get_strength_dashboard_data`) -/

/-- Whether a strength label passes the SQL filter
`isnot(None) and != 'None'`. -/
def strengthQual (t : Option String) : Bool :=
  match t with
  | none => false
  | some s => decide (s ≠ "None")

/-- `last_7_days_count`: number of rows in the last-7-day window whose
workout type is non-NULL and not the literal `'None'`. -/
def strengthLast7Count (db : List DailyData) (today : Nat) : Nat :=
  let (s, e) := get_7_days_before_date today
  (db.filter (fun r => inRange s e r && strengthQual r.strength_workout_type)).length

/-- `counts[t] = counts.get(t, 0) + 1` on an association list. -/
def bumpCount : List (String × Nat) → String → List (String × Nat)
  | [], t => [(t, 1)]
  | (k, v) :: rest, t =>
    if k = t then (k, v + 1) :: rest else (k, v) :: bumpCount rest t

/-- The body of the counting loop: the Python truthiness guard
`if workout_type:` skips NULL and the empty string, else increments the
label's count. -/
def workoutCountStep (counts : List (String × Nat)) (r : DailyData) :
    List (String × Nat) :=
  match r.strength_workout_type with
  | some t => if t ≠ "" then bumpCount counts t else counts
  | none => counts

/-- `workout_type_counts`: fold the counting loop over the filtered full
history. -/
def workoutTypeCounts (db : List DailyData) : List (String × Nat) :=
  (db.filter (fun r => strengthQual r.strength_workout_type)).foldl
    workoutCountStep []

/-- Dictionary read-out with default 0 (`counts.get(t, 0)`). -/
def countsGet : List (String × Nat) → String → Nat
  | [], _ => 0
  | (k, v) :: rest, t => if k = t then v else countsGet rest t

/-! ### Physio dashboard (`get_physio_dashboard_data`) -/

/-- `current_active`: yesterday's `physio_active` value, `none` when no row
exists. -/
def physioCurrentActive (db : List DailyData) (yesterday : Nat) : Option Bool :=
  match lookupDate db yesterday with
  | none => none
  | some r => r.physio_active

/-- The physio current-streak backward scan (lines 539-561 of `data.py`),
indexed as in `stepsCurGo`: an active-and-completed day counts and
continues, an active-but-not-completed day stops, an inactive or
NULL-active day is skipped without counting. -/
def physioCurGo (db : List DailyData) : Nat → Nat
  | 0 => 0
  | e + 1 =>
    match lookupDate db e with
    | none => 0
    | some r =>
      if r.physio_active = some true then
        if r.physio_completed = some true then 1 + physioCurGo db e else 0
      else physioCurGo db e

/-- `current_streak` of the physio dashboard. -/
def physioCurrentStreak (db : List DailyData) (yesterday : Nat) : Nat :=
  physioCurGo db (yesterday + 1)

/-- One iteration of the physio longest-streak loop (lines 572-589 of
`data.py`): gap reset, then count active-and-completed days, reset on
active-but-not-completed days, and leave the running count unchanged on
inactive days. -/
def physioFwdStep (st : FwdState) (r : DailyData) : FwdState :=
  let c := match st.prev with
    | some p => if 1 < r.date - p then 0 else st.run
    | none => st.run
  if r.physio_active = some true ∧ r.physio_completed = some true then
    let c' := c + 1
    if st.longest < c' then ⟨c', some r.date, c', some r.date⟩
    else ⟨st.longest, st.end_date, c', some r.date⟩
  else if r.physio_active = some true then
    ⟨st.longest, st.end_date, 0, some r.date⟩
  else ⟨st.longest, st.end_date, c, some r.date⟩

/-- `longest_streak` of the physio dashboard. -/
def physioLongestStreak (db : List DailyData) : Nat × Option Nat :=
  let st := db.foldl physioFwdStep fwdInit
  (st.longest, st.end_date)

/-! ### Weight dashboard (`get_weight_dashboard_data`) -/

/-- `func.max(DailyData.date)` over rows with non-NULL weight. -/
def maxWeightDate (db : List DailyData) : Option Nat :=
  (db.filter (fun r => r.weight_kg.isSome)).foldl
    (fun (acc : Option Nat) r =>
      match acc with
      | none => some r.date
      | some m => some (max m r.date)) none

/-- `weight_history`: all non-NULL weight readings within the trailing
365-day window ending at the most recent weighted date; empty when no
weight was ever recorded. -/
def weightHistory (db : List DailyData) : List (Nat × ℚ) :=
  match maxWeightDate db with
  | none => []
  | some last_date =>
    let window_start := last_date - 364
    (db.filter (fun r =>
        r.weight_kg.isSome && inRange window_start last_date r)).map
      (fun r => (r.date, r.weight_kg.getD 0))

/-! ### Missing-data detector (`get_missing_data`) -/

/-- Whether a row is "missing" for the `calories` scope: any of the six
calorie fields NULL. -/
def caloriesNullRow (r : DailyData) : Bool :=
  r.calories_green_goal.isNone || r.calories_green_actual.isNone ||
  r.calories_yellow_goal.isNone || r.calories_yellow_actual.isNone ||
  r.calories_orange_goal.isNone || r.calories_orange_actual.isNone

/-- Whether a row is "missing" for the `physio` scope: `physio_active` NULL,
or active true with `physio_completed` NULL. -/
def physioNullRow (r : DailyData) : Bool :=
  r.physio_active.isNone ||
  (r.physio_active == some true && r.physio_completed.isNone)

/-- `get_missing_data` from `data.py`: the scoped missing-dates scan over
`[first stored date, yesterday]`, formatted as wire entries. -/
def get_missing_data (db : List DailyData) (today : Nat) (scope : String) :
    List MissingEntry :=
  let yesterday := today - 1
  match minDate db with
  | none => []
  | some first_date =>
    let all_dates := List.range' first_date (yesterday + 1 - first_date)
    let existing_dates := db.map (fun r => r.date)
    let missing_completely :=
      all_dates.filter (fun d => !(existing_dates.contains d))
    let nullScope := fun (p : DailyData → Bool) =>
      ((db.filter (fun r => p r && inRange first_date yesterday r)).map
        (fun r => r.date)) ++ missing_completely
    let missing_dates :=
      if scope = "dashboard" then missing_completely
      else if scope = "calories" then nullScope caloriesNullRow
      else if scope = "steps" then
        nullScope (fun r => r.steps_goal.isNone || r.steps_actual.isNone)
      else if scope = "weight" then
        nullScope (fun r => r.weight_kg.isNone)
      else if scope = "cardio" then
        nullScope (fun r => r.cardio_high_intensity_minutes.isNone ||
          r.cardio_low_intensity_minutes.isNone)
      else if scope = "strength" then
        nullScope (fun r => r.strength_workout_type.isNone)
      else if scope = "physio" then nullScope physioNullRow
      else []
    formatMissing missing_dates

/-! ### Auxiliary readouts and concrete example histories -/

/-- Total of all per-label counts in a counts dictionary. -/
def sumCounts (l : List (String × Nat)) : Nat :=
  (l.map Prod.snd).sum

/-- Whether a row carries a label that the counting loop actually records:
non-NULL, not `'None'`, and (by Python truthiness) not the empty string. -/
def validLabelRow (r : DailyData) : Bool :=
  match r.strength_workout_type with
  | some t => decide (t ≠ "None") && decide (t ≠ "")
  | none => false

/-- Whether the counting loop body increments some label for this row
(`if workout_type:` on an already non-NULL value). -/
def bumpsRow (r : DailyData) : Bool :=
  match r.strength_workout_type with
  | some t => decide (t ≠ "")
  | none => false

/-- Two qualifying steps days separated by a stored gap of 3 calendar
days. -/
def gapExampleSteps : List DailyData :=
  [{emptyRow 10 with steps_actual := some 5, steps_goal := some 5},
   {emptyRow 13 with steps_actual := some 5, steps_goal := some 5}]

/-- Two qualifying cardio days separated by a stored gap of 3 calendar
days. -/
def gapExampleCardio : List DailyData :=
  [{emptyRow 10 with cardio_low_intensity_minutes := some 20},
   {emptyRow 13 with cardio_high_intensity_minutes := some 15}]

/-- Two qualifying physio days separated by a stored gap of 3 calendar
days. -/
def gapExamplePhysio : List DailyData :=
  [{emptyRow 10 with physio_active := some true, physio_completed := some true},
   {emptyRow 13 with physio_active := some true, physio_completed := some true}]

/-- Three consecutive stored dates with physio records
`[active=T, completed=T]`, `[active=F, completed=NULL]`,
`[active=T, completed=T]`. -/
def physioSkipExample : List DailyData :=
  [{emptyRow 10 with physio_active := some true, physio_completed := some true},
   {emptyRow 11 with physio_active := some false},
   {emptyRow 12 with physio_active := some true, physio_completed := some true}]

/-- A history whose last-7-day window (for today = 10) holds a single row
with `steps_actual = 0`: the window sum exists and is 0. -/
def zeroSumExample : List DailyData :=
  [{emptyRow 8 with steps_actual := some 0}]

/-- Seven consecutive days ending yesterday (today = 8) with step actuals
`[1000, 2000, null, null, null, null, null]`. -/
def stepsWeekExample : List DailyData :=
  [{emptyRow 1 with steps_actual := some 1000},
   {emptyRow 2 with steps_actual := some 2000},
   emptyRow 3, emptyRow 4, emptyRow 5, emptyRow 6, emptyRow 7]

/-- Seven consecutive days ending yesterday (today = 8) with cardio minutes
low = `[10, null, 20, null, null, null, null]` and
high = `[null, 5, null, null, null, null, null]`. -/
def cardioWeekExample : List DailyData :=
  [{emptyRow 1 with cardio_low_intensity_minutes := some 10},
   {emptyRow 2 with cardio_high_intensity_minutes := some 5},
   {emptyRow 3 with cardio_low_intensity_minutes := some 20},
   emptyRow 4, emptyRow 5, emptyRow 6, emptyRow 7]

/-- A history with a single stored record whose workout label is the empty
string: non-NULL and not the literal `'None'`. -/
def emptyLabelExample : List DailyData :=
  [{emptyRow 1 with strength_workout_type := some ""}]

/-- A history with a single labelled strength workout. -/
def strengthExample : List DailyData :=
  [{emptyRow 3 with strength_workout_type := some "Push"},
   {emptyRow 4 with strength_workout_type := some "Push"},
   {emptyRow 5 with strength_workout_type := some "Legs"}]

/-- A steps history with one qualifying day at date 4 preceded by a
qualifying day at date 3. -/
def stepsStreakExample : List DailyData :=
  [{emptyRow 3 with steps_actual := some 9, steps_goal := some 8},
   {emptyRow 4 with steps_actual := some 10, steps_goal := some 8}]

/-! ## Theorems -/

theorem sumStep_getD (acc : Option Int) (v : Option Int) :
    (sumStep acc v).getD 0 = acc.getD 0 + v.getD 0 := by
  cases v <;> simp [sumStep]

theorem foldl_sumStep_getD (l : List (Option Int)) (acc : Option Int) :
    (l.foldl sumStep acc).getD 0 = acc.getD 0 + (l.map (fun v => v.getD 0)).sum := by
  induction l generalizing acc with
  | nil => simp
  | cons x xs ih =>
    simp only [List.foldl_cons, List.map_cons, List.sum_cons, ih, sumStep_getD]
    ring

/-- Reading a SQL window sum with NULL defaulted to 0 agrees with summing
the window's values with NULL read as 0. -/
theorem sqlSum_getD (db : List DailyData) (f : DailyData → Option Int)
    (s e : Nat) : (sqlSum db f s e).getD 0 = windowSumZ db f s e := by
  simp only [sqlSum, windowSumZ, foldl_sumStep_getD, List.map_map]
  simp [Function.comp_def]

/-- A successful date lookup returns a stored row bearing that date. -/
theorem lookupDate_mem {db : List DailyData} {d : Nat} {r : DailyData}
    (h : lookupDate db d = some r) : r ∈ db ∧ r.date = d := by
  refine ⟨List.mem_of_find?_eq_some h, ?_⟩
  have := List.find?_some h
  simpa using this

/-- C4: for every stored history with no record at the anchor date
(yesterday), each of the three current-streak computations (steps, cardio,
physio) returns 0 — absence of the anchor record stops the backward scan
immediately. -/
theorem missingAnchorYieldsZeroStreaks (db : List DailyData) (y : Nat)
    (h : lookupDate db y = none) :
    stepsCurrentStreak db y = 0 ∧ cardioCurrentStreak db y = 0 ∧
      physioCurrentStreak db y = 0 := by
  refine ⟨?_, ?_, ?_⟩ <;>
    simp [stepsCurrentStreak, stepsCurGo, cardioCurrentStreak, cardioCurGo,
      physioCurrentStreak, physioCurGo, h]

theorem missingAnchorYieldsZeroStreaks_witness :
    stepsCurrentStreak [emptyRow 3] 5 = 0 ∧
      cardioCurrentStreak [emptyRow 3] 5 = 0 ∧
      physioCurrentStreak [emptyRow 3] 5 = 0 :=
  missingAnchorYieldsZeroStreaks [emptyRow 3] 5 (by decide)

/-- C5: in the steps current-streak backward scan, a record at the probe
date with both fields non-NULL and `actual >= goal` extends the streak by
exactly 1 (continuing one day earlier); a record with a NULL field or
`actual < goal` (exactly the `stepsQual r = false` cases) terminates the
scan without counting that day. -/
theorem stepsStreakExtendOrStop (db : List DailyData) (y : Nat)
    (r : DailyData) (hy : 0 < y) (hl : lookupDate db y = some r) :
    (stepsQual r = true →
      stepsCurrentStreak db y = stepsCurrentStreak db (y - 1) + 1) ∧
    (stepsQual r = false → stepsCurrentStreak db y = 0) := by
  have hrw : y - 1 + 1 = y := by omega
  constructor
  · intro hq
    simp only [stepsCurrentStreak, hrw]
    rw [show y + 1 = (y : Nat) + 1 from rfl]
    simp [stepsCurGo, hl, hq, Nat.add_comm]
  · intro hq
    simp [stepsCurrentStreak, stepsCurGo, hl, hq]

theorem stepsStreakExtendOrStop_witness :
    stepsCurrentStreak stepsStreakExample 4 =
      stepsCurrentStreak stepsStreakExample 3 + 1 :=
  (stepsStreakExtendOrStop stepsStreakExample 4
    {emptyRow 4 with steps_actual := some 10, steps_goal := some 8}
    (by decide) (by decide)).1 (by decide)

/-- C1: in each longest-streak forward scan (steps, cardio, physio), a date
gap of more than one calendar day between the previous stored row and the
current one resets the running count to zero before the current row is
evaluated — the post-state running count is determined by the current row
alone; and two qualifying days separated by a stored gap of 3 calendar days
yield a longest streak of 1, never 2, in all three scans. -/
theorem longestStreakGapResets :
    (∀ (st : FwdState) (r : DailyData) (p : Nat), st.prev = some p →
      1 < r.date - p →
      (stepsFwdStep st r).run = (if stepsQual r then 1 else 0) ∧
      (cardioFwdStep st r).run = (if cardioQual r then 1 else 0) ∧
      (physioFwdStep st r).run =
        (if r.physio_active = some true ∧ r.physio_completed = some true
         then 1 else 0)) ∧
    (stepsLongestStreak gapExampleSteps = (1, some 10) ∧
     cardioLongestStreak gapExampleCardio = (1, some 10) ∧
     physioLongestStreak gapExamplePhysio = (1, some 10)) := by
  constructor
  · intro st r p hp hgap
    refine ⟨?_, ?_, ?_⟩
    · simp only [stepsFwdStep, hp, if_pos hgap]
      by_cases hq : stepsQual r
      · simp only [hq, if_true]
        split <;> simp
      · simp [hq]
    · simp only [cardioFwdStep, hp, if_pos hgap]
      by_cases hq : cardioQual r
      · simp only [hq, if_true]
        split <;> simp
      · simp [hq]
    · simp only [physioFwdStep, hp, if_pos hgap]
      by_cases hq : r.physio_active = some true ∧ r.physio_completed = some true
      · simp only [if_pos hq, hq]
        split <;> (try split) <;> simp_all
      · simp only [if_neg hq, hq, if_false]
        split <;> simp_all
  · exact ⟨by decide, by decide, by decide⟩

theorem longestStreakGapResets_witness :
    (stepsFwdStep ⟨1, some 10, 1, some 10⟩
      {emptyRow 13 with steps_actual := some 5, steps_goal := some 5}).run
      = 1 := by
  have h := (longestStreakGapResets.1 ⟨1, some 10, 1, some 10⟩
    {emptyRow 13 with steps_actual := some 5, steps_goal := some 5}
    10 rfl (by decide)).1
  simpa using h

/-- C2: in the physio streak computations a stored record whose
`physio_active` is not `true` (false or NULL) is a SKIP day: the backward
scan moves one day earlier without incrementing or stopping, and the
forward scan (absent a date gap) leaves both the running count and the best
streak unchanged; for three consecutive stored dates with records
`[active=T, completed=T]`, `[active=F, completed=NULL]`,
`[active=T, completed=T]` the longest physio streak is 2, ending at the
third date, with no reset at the middle day. -/
theorem physioInactiveIsSkip :
    (∀ (db : List DailyData) (e : Nat) (r : DailyData),
      lookupDate db e = some r → r.physio_active ≠ some true →
      physioCurGo db (e + 1) = physioCurGo db e) ∧
    (∀ (st : FwdState) (r : DailyData), r.physio_active ≠ some true →
      (∀ p, st.prev = some p → r.date - p ≤ 1) →
      (physioFwdStep st r).run = st.run ∧
      (physioFwdStep st r).longest = st.longest ∧
      (physioFwdStep st r).end_date = st.end_date) ∧
    physioLongestStreak physioSkipExample = (2, some 12) := by
  refine ⟨?_, ?_, by decide⟩
  · intro db e r hl ha
    simp [physioCurGo, hl, ha]
  · intro st r ha hgap
    have hc : (match st.prev with
        | some p => if 1 < r.date - p then 0 else st.run
        | none => st.run) = st.run := by
      cases hp : st.prev with
      | none => rfl
      | some p =>
        have := hgap p hp
        simp [Nat.not_lt_of_le this]
    simp [physioFwdStep, ha, hc]

theorem physioInactiveIsSkip_witness :
    physioCurGo physioSkipExample 12 = physioCurGo physioSkipExample 11 ∧
      (physioFwdStep ⟨1, some 10, 1, some 10⟩
        {emptyRow 11 with physio_active := some false}).run = 1 := by
  constructor
  · exact physioInactiveIsSkip.1 physioSkipExample 11
      {emptyRow 11 with physio_active := some false} (by decide) (by decide)
  · have h := (physioInactiveIsSkip.2.1 ⟨1, some 10, 1, some 10⟩
      {emptyRow 11 with physio_active := some false} (by decide)
      (by intro p hp; cases hp; decide)).1
    simpa using h

theorem stepsCurGo_le_sub (db : List DailyData) (m : Nat)
    (h : ∀ r ∈ db, m ≤ r.date) : ∀ e, stepsCurGo db e ≤ e - m := by
  intro e
  induction e with
  | zero => simp [stepsCurGo]
  | succ e ih =>
    unfold stepsCurGo
    cases hl : lookupDate db e with
    | none => simp
    | some r =>
      obtain ⟨hmem, hdate⟩ := lookupDate_mem hl
      have hme : m ≤ e := hdate ▸ h r hmem
      by_cases hq : stepsQual r
      · simp only [hq, if_true]
        omega
      · simp [hq]

theorem cardioCurGo_le_sub (db : List DailyData) (m : Nat)
    (h : ∀ r ∈ db, m ≤ r.date) : ∀ e, cardioCurGo db e ≤ e - m := by
  intro e
  induction e with
  | zero => simp [cardioCurGo]
  | succ e ih =>
    unfold cardioCurGo
    cases hl : lookupDate db e with
    | none => simp
    | some r =>
      obtain ⟨hmem, hdate⟩ := lookupDate_mem hl
      have hme : m ≤ e := hdate ▸ h r hmem
      by_cases hq : cardioQual r
      · simp only [hq, if_true]
        omega
      · simp [hq]

theorem physioCurGo_le_sub (db : List DailyData) (m : Nat)
    (h : ∀ r ∈ db, m ≤ r.date) : ∀ e, physioCurGo db e ≤ e - m := by
  intro e
  induction e with
  | zero => simp [physioCurGo]
  | succ e ih =>
    unfold physioCurGo
    cases hl : lookupDate db e with
    | none => simp
    | some r =>
      obtain ⟨hmem, hdate⟩ := lookupDate_mem hl
      have hme : m ≤ e := hdate ▸ h r hmem
      by_cases ha : r.physio_active = some true
      · by_cases hc : r.physio_completed = some true
        · simp only [ha, hc, if_true]
          omega
        · simp [ha, hc]
      · simp only [ha, if_false]
        omega

/-- C10: each of the three current-streak backward scans terminates with a
bounded result.  In the embedding the scans are structurally recursive —
each iteration either stops or moves the probe date exactly one day
earlier, physio SKIP days included — and when every stored record is dated
at least `m`, the scan anchored at yesterday `y` counts at most
`y + 1 - m` days: it stops no later than the first probe date that lies
before the earliest stored record, where the lookup fails. -/
theorem currentStreakScansTerminate (db : List DailyData) (y m : Nat)
    (h : ∀ r ∈ db, m ≤ r.date) :
    stepsCurrentStreak db y ≤ y + 1 - m ∧
      cardioCurrentStreak db y ≤ y + 1 - m ∧
      physioCurrentStreak db y ≤ y + 1 - m :=
  ⟨stepsCurGo_le_sub db m h (y + 1), cardioCurGo_le_sub db m h (y + 1),
    physioCurGo_le_sub db m h (y + 1)⟩

theorem currentStreakScansTerminate_witness :
    stepsCurrentStreak stepsStreakExample 4 ≤ 4 + 1 - 3 ∧
      cardioCurrentStreak stepsStreakExample 4 ≤ 4 + 1 - 3 ∧
      physioCurrentStreak stepsStreakExample 4 ≤ 4 + 1 - 3 :=
  currentStreakScansTerminate stepsStreakExample 4 3 (by decide)

/-- C6: the cardio last-7-days totals sum low-intensity and high-intensity
minutes independently over the 7-day window ending yesterday, treating NULL
values as 0; for low = `[10, null, 20, null, null, null, null]` and
high = `[null, 5, null, null, null, null, null]` the reported totals are
30 and 5. -/
theorem cardioWeeklyTotals :
    (∀ (db : List DailyData) (today : Nat),
      cardioLow7Total db today =
        windowSumZ db (fun r => r.cardio_low_intensity_minutes)
          (today - 7) (today - 1) ∧
      cardioHigh7Total db today =
        windowSumZ db (fun r => r.cardio_high_intensity_minutes)
          (today - 7) (today - 1)) ∧
    cardioLow7Total cardioWeekExample 8 = 30 ∧
      cardioHigh7Total cardioWeekExample 8 = 5 := by
  refine ⟨fun db today => ?_, by decide, by decide⟩
  have h7 : today - 1 - 6 = today - 7 := by omega
  constructor <;>
    simp [cardioLow7Total, cardioHigh7Total, get_7_days_before_date, h7,
      sqlSum_getD]

/-- The raw window average always equals the NULL-as-zero window sum
divided by the fixed divisor 7 (a NULL SQL sum and a zero SQL sum both
produce the value 0). -/
theorem stepsWindowAvg_eq (db : List DailyData) (s e : Nat) :
    stepsWindowAvg db s e =
      ((windowSumZ db (fun r => r.steps_actual) s e : Int) : ℚ) / 7 := by
  unfold stepsWindowAvg
  cases h : sqlSum db (fun r => r.steps_actual) s e with
  | none =>
    have := sqlSum_getD db (fun r => r.steps_actual) s e
    rw [h] at this
    simp only [Option.getD_none] at this
    rw [← this]
    norm_num
  | some v =>
    have := sqlSum_getD db (fun r => r.steps_actual) s e
    rw [h] at this
    simp only [Option.getD_some] at this
    rw [← this]

/-- C3 counterexample: a stored history whose 7-day window holds a single
row with `steps_actual = 0`.  The NULL-as-zero window sum divided by 7 is
0, but the reported average is `None` (the Python truthiness guard
`float(avg) if avg else None` discards a zero average), so the reported
average does not equal the window sum divided by 7. -/
theorem stepsWeeklyAvgClaimFalse :
    (stepsAverages zeroSumExample 10).1 ≠
      some (((windowSumZ zeroSumExample (fun r => r.steps_actual)
        (10 - 7) (10 - 1) : Int) : ℚ) / 7) := by
  have h1 : (10 : Nat) - 1 - 6 = 10 - 7 := by norm_num
  have hsum : windowSumZ zeroSumExample (fun r => r.steps_actual)
      (10 - 7) (10 - 1) = 0 := by decide
  have hrep : (stepsAverages zeroSumExample 10).1 = none := by
    simp [stepsAverages, get_7_days_before_date, stepsWindowAvg_eq, reportAvg,
      h1, hsum]
  rw [hrep]
  simp

/-- C3 amended: the 7-day step average (and the prior-7-day average) is
computed with the fixed divisor 7, never the count of days with data:
whenever the NULL-as-zero window sum is nonzero, the reported average is
exactly that sum divided by 7; when the window sum is zero (no data in the
window, or data summing to zero) the reported average is `None` rather
than 0, by the Python truthiness guard. -/
theorem stepsWeeklyAvgFixedDivisor (db : List DailyData) (today : Nat) :
    (windowSumZ db (fun r => r.steps_actual) (today - 7) (today - 1) ≠ 0 →
      (stepsAverages db today).1 =
        some (((windowSumZ db (fun r => r.steps_actual)
          (today - 7) (today - 1) : Int) : ℚ) / 7)) ∧
    (windowSumZ db (fun r => r.steps_actual) (today - 7) (today - 1) = 0 →
      (stepsAverages db today).1 = none) ∧
    (windowSumZ db (fun r => r.steps_actual) (today - 14) (today - 8) ≠ 0 →
      (stepsAverages db today).2 =
        some (((windowSumZ db (fun r => r.steps_actual)
          (today - 14) (today - 8) : Int) : ℚ) / 7)) ∧
    (windowSumZ db (fun r => r.steps_actual) (today - 14) (today - 8) = 0 →
      (stepsAverages db today).2 = none) := by
  have h1 : today - 1 - 6 = today - 7 := by omega
  have h2 : today - 7 - 1 - 6 = today - 14 := by omega
  have h3 : today - 7 - 1 = today - 8 := by omega
  have h4 : today - 8 - 6 = today - 14 := by omega
  refine ⟨fun h => ?_, fun h => ?_, fun h => ?_, fun h => ?_⟩ <;>
    simp [stepsAverages, get_7_days_before_date, stepsWindowAvg_eq, reportAvg,
      h1, h2, h3, h4, h, div_eq_zero_iff]

theorem stepsWeeklyAvgFixedDivisor_witness :
    (stepsAverages stepsWeekExample 8).1 = some ((3000 : ℚ) / 7) := by
  have h := (stepsWeeklyAvgFixedDivisor stepsWeekExample 8).1 (by decide)
  rw [h]
  have h2 : windowSumZ stepsWeekExample (fun r => r.steps_actual)
      (8 - 7) (8 - 1) = 3000 := by decide
  rw [h2]
  norm_num

theorem countsGet_bumpCount_same (l : List (String × Nat)) (t : String) :
    countsGet (bumpCount l t) t = countsGet l t + 1 := by
  induction l with
  | nil => simp [bumpCount, countsGet]
  | cons kv rest ih =>
    obtain ⟨k, v⟩ := kv
    by_cases hk : k = t
    · simp [bumpCount, countsGet, hk]
    · simp [bumpCount, countsGet, hk, ih]

theorem countsGet_bumpCount_other (l : List (String × Nat)) (t t' : String)
    (h : t' ≠ t) : countsGet (bumpCount l t') t = countsGet l t := by
  induction l with
  | nil => simp [bumpCount, countsGet, h]
  | cons kv rest ih =>
    obtain ⟨k, v⟩ := kv
    by_cases hk : k = t'
    · subst hk
      simp [bumpCount, countsGet, h]
    · by_cases hkt : k = t
      · simp [bumpCount, countsGet, hk, hkt, Ne.symm h]
      · simp [bumpCount, countsGet, hk, hkt, ih]

theorem sumCounts_bumpCount (l : List (String × Nat)) (t : String) :
    sumCounts (bumpCount l t) = sumCounts l + 1 := by
  induction l with
  | nil => simp [bumpCount, sumCounts]
  | cons kv rest ih =>
    obtain ⟨k, v⟩ := kv
    by_cases hk : k = t
    · simp [bumpCount, sumCounts, hk]
      ring
    · simp only [bumpCount, sumCounts, if_neg hk, List.map_cons, List.sum_cons]
      have := ih
      simp only [sumCounts] at this
      omega

theorem workoutCountStep_get (acc : List (String × Nat)) (r : DailyData)
    (label : String) (hlab : label ≠ "") :
    countsGet (workoutCountStep acc r) label = countsGet acc label
      + (if r.strength_workout_type == some label then 1 else 0) := by
  unfold workoutCountStep
  cases ht : r.strength_workout_type with
  | none => simp
  | some t =>
    by_cases hte : t = ""
    · subst hte
      have hne : ("" : String) ≠ label := fun hh => hlab hh.symm
      simp [hne]
    · by_cases htl : t = label
      · subst htl
        simp [hte, countsGet_bumpCount_same]
      · simp [hte, htl, countsGet_bumpCount_other acc label t htl]

theorem workoutCountStep_sum (acc : List (String × Nat)) (r : DailyData) :
    sumCounts (workoutCountStep acc r) = sumCounts acc
      + (if bumpsRow r then 1 else 0) := by
  unfold workoutCountStep bumpsRow
  cases ht : r.strength_workout_type with
  | none => simp
  | some t =>
    by_cases hte : t = ""
    · subst hte
      simp
    · simp [hte, sumCounts_bumpCount]

theorem workoutFold_get (l : List DailyData) (acc : List (String × Nat))
    (label : String) (hlab : label ≠ "") :
    countsGet (l.foldl workoutCountStep acc) label = countsGet acc label
      + l.countP (fun r => r.strength_workout_type == some label) := by
  induction l generalizing acc with
  | nil => simp
  | cons r rest ih =>
    simp only [List.foldl_cons, List.countP_cons, ih,
      workoutCountStep_get acc r label hlab]
    omega

theorem workoutFold_sum (l : List DailyData) (acc : List (String × Nat)) :
    sumCounts (l.foldl workoutCountStep acc) = sumCounts acc
      + l.countP bumpsRow := by
  induction l generalizing acc with
  | nil => simp
  | cons r rest ih =>
    simp only [List.foldl_cons, List.countP_cons, ih, workoutCountStep_sum]
    omega

/-- C9 counterexample: a stored record whose workout label is the empty
string — non-NULL and distinct from the sentinel `'None'` — passes the SQL
filter (so it is a "distinct workout-type label in the full history"), yet
the Python truthiness guard `if workout_type:` drops it, so it contributes
to no label's count: the claimed per-label frequency equality fails at the
empty-string label. -/
theorem strengthEmptyLabelNotCounted :
    ¬ (countsGet (workoutTypeCounts emptyLabelExample) ""
        = emptyLabelExample.countP
            (fun r => r.strength_workout_type == some "")) := by
  decide

/-- C9 amended: the strength summary reports (1) the count of days in the
7-day window ending yesterday whose workout type is non-NULL and not the
literal `'None'`, and (2) for every distinct non-empty workout-type label
other than NULL and `'None'`, a frequency count equal to the number of
stored records bearing that label; every record with a non-NULL,
non-`'None'`, non-empty label contributes to exactly one label's count
(the total of all counts equals the number of such records), while
empty-string labels are excluded from the per-label counts by the Python
truthiness guard. -/
theorem strengthSummaryAmended (db : List DailyData) (today : Nat)
    (label : String) (h1 : label ≠ "None") (h2 : label ≠ "") :
    strengthLast7Count db today
      = db.countP (fun r => inRange (today - 7) (today - 1) r
          && strengthQual r.strength_workout_type) ∧
    countsGet (workoutTypeCounts db) label
      = db.countP (fun r => r.strength_workout_type == some label) ∧
    sumCounts (workoutTypeCounts db) = db.countP validLabelRow := by
  refine ⟨?_, ?_, ?_⟩
  · have h7 : today - 1 - 6 = today - 7 := by omega
    simp [strengthLast7Count, get_7_days_before_date, h7,
      List.countP_eq_length_filter]
  · unfold workoutTypeCounts
    rw [workoutFold_get _ _ _ h2]
    simp only [countsGet, List.countP_filter, Nat.zero_add]
    apply List.countP_congr
    intro r _
    cases ht : r.strength_workout_type with
    | none => simp [strengthQual]
    | some t =>
      by_cases htl : t = label
      · subst htl
        simp [strengthQual, h1]
      · simp [strengthQual, htl]
  · unfold workoutTypeCounts
    rw [workoutFold_sum]
    simp only [sumCounts, List.map_nil, List.sum_nil, Nat.zero_add,
      List.countP_filter]
    apply List.countP_congr
    intro r _
    cases ht : r.strength_workout_type with
    | none => simp [bumpsRow, strengthQual, validLabelRow, ht]
    | some t =>
      simp [bumpsRow, strengthQual, validLabelRow, ht, Bool.and_comm]

theorem strengthSummaryAmended_witness :
    countsGet (workoutTypeCounts strengthExample) "Push" = 2 ∧
      sumCounts (workoutTypeCounts strengthExample) = 3 := by
  have h := strengthSummaryAmended strengthExample 8 "Push" (by decide)
    (by decide)
  constructor
  · rw [h.2.1]
    decide
  · rw [h.2.2]
    decide

theorem parseDigit_digitChar (n : Nat) :
    parseDigit (digitChar n) = some (n % 10) := by
  have h : n % 10 < 10 := Nat.mod_lt _ (by norm_num)
  unfold digitChar
  generalize hk : n % 10 = k
  rw [hk] at h
  interval_cases k <;> decide

theorem digitChar_ne_dash (n : Nat) : digitChar n ≠ '-' := by
  have h : n % 10 < 10 := Nat.mod_lt _ (by norm_num)
  unfold digitChar
  generalize hk : n % 10 = k
  rw [hk] at h
  interval_cases k <;> decide

theorem natDigitsAuxBE_append :
    ∀ (fuel n : Nat) (acc : List Nat),
      natDigitsAuxBE fuel n acc = natDigitsAuxBE fuel n [] ++ acc := by
  intro fuel
  induction fuel with
  | zero => simp [natDigitsAuxBE]
  | succ fuel ih =>
    intro n acc
    by_cases h : n < 10
    · simp [natDigitsAuxBE, h]
    · simp only [natDigitsAuxBE, if_neg h]
      rw [ih (n / 10) (n % 10 :: acc), ih (n / 10) [n % 10],
        List.append_assoc]
      rfl

theorem natDigitsAuxBE_fuel :
    ∀ (f1 f2 n : Nat) (acc : List Nat), n < 10 ^ f1 → n < 10 ^ f2 →
      0 < f1 → 0 < f2 → natDigitsAuxBE f1 n acc = natDigitsAuxBE f2 n acc := by
  intro f1
  induction f1 with
  | zero => omega
  | succ a ih =>
    intro f2 n acc h1 h2 _ hf2
    obtain ⟨b, rfl⟩ : ∃ b, f2 = b + 1 := ⟨f2 - 1, by omega⟩
    by_cases h : n < 10
    · simp [natDigitsAuxBE, h]
    · simp only [natDigitsAuxBE, if_neg h]
      have ha : 0 < a := by
        rcases Nat.eq_zero_or_pos a with ha0 | ha0
        · subst ha0
          simp at h1
          omega
        · exact ha0
      have hb : 0 < b := by
        rcases Nat.eq_zero_or_pos b with hb0 | hb0
        · subst hb0
          simp at h2
          omega
        · exact hb0
      have hda : n / 10 < 10 ^ a := by
        rw [Nat.div_lt_iff_lt_mul (by norm_num)]
        calc n < 10 ^ (a + 1) := h1
        _ = 10 ^ a * 10 := by ring
      have hdb : n / 10 < 10 ^ b := by
        rw [Nat.div_lt_iff_lt_mul (by norm_num)]
        calc n < 10 ^ (b + 1) := h2
        _ = 10 ^ b * 10 := by ring
      exact ih b (n / 10) (n % 10 :: acc) hda hdb ha hb

theorem natDigitsBE_small {n : Nat} (h : n < 10) : natDigitsBE n = [n] := by
  simp [natDigitsBE, natDigitsAuxBE, h]

theorem natDigitsBE_large {n : Nat} (h : 10 ≤ n) :
    natDigitsBE n = natDigitsBE (n / 10) ++ [n % 10] := by
  unfold natDigitsBE
  rw [show natDigitsAuxBE (n + 1) n [] = natDigitsAuxBE n (n / 10) [n % 10]
      from by simp [natDigitsAuxBE, Nat.not_lt.mpr h]]
  rw [natDigitsAuxBE_append]
  congr 1
  apply natDigitsAuxBE_fuel
  · calc n / 10 < n := Nat.div_lt_self (by omega) (by norm_num)
    _ < 10 ^ n := Nat.lt_pow_self (by norm_num) n
  · calc n / 10 < 10 ^ (n / 10) := Nat.lt_pow_self (by norm_num) _
    _ ≤ 10 ^ (n / 10 + 1) := Nat.pow_le_pow_right (by norm_num) (by omega)
  · omega
  · omega

theorem natDigitsBE_lt (n : Nat) : ∀ d ∈ natDigitsBE n, d < 10 := by
  induction n using Nat.strong_induction_on with
  | _ n ih =>
    by_cases h : n < 10
    · rw [natDigitsBE_small h]
      intro d hd
      simp at hd
      omega
    · rw [natDigitsBE_large (by omega)]
      intro d hd
      rcases List.mem_append.mp hd with hmem | hmem
      · exact ih (n / 10) (Nat.div_lt_self (by omega) (by norm_num)) d hmem
      · simp at hmem
        subst hmem
        exact Nat.mod_lt _ (by norm_num)

theorem natDigitsBE_ne_nil (n : Nat) : natDigitsBE n ≠ [] := by
  by_cases h : n < 10
  · rw [natDigitsBE_small h]
    simp
  · rw [natDigitsBE_large (by omega)]
    simp

theorem foldl_parseStep_natDigitsBE (n : Nat) :
    ∀ a : Nat, List.foldl parseStep (some a) ((natDigitsBE n).map digitChar)
      = some (a * 10 ^ (natDigitsBE n).length + n) := by
  induction n using Nat.strong_induction_on with
  | _ n ih =>
    intro a
    by_cases h : n < 10
    · rw [natDigitsBE_small h]
      simp only [List.map_cons, List.map_nil, List.foldl_cons, List.foldl_nil,
        List.length_cons, List.length_nil]
      rw [show parseStep (some a) (digitChar n) = some (10 * a + n % 10)
          from by simp [parseStep, parseDigit_digitChar]]
      rw [Nat.mod_eq_of_lt h]
      congr 1
      ring
    · rw [natDigitsBE_large (by omega)]
      rw [List.map_append, List.foldl_append]
      rw [ih (n / 10) (Nat.div_lt_self (by omega) (by norm_num)) a]
      simp only [List.map_cons, List.map_nil, List.foldl_cons, List.foldl_nil,
        List.length_append, List.length_cons, List.length_nil]
      rw [show ∀ v, parseStep (some v) (digitChar (n % 10))
            = some (10 * v + n % 10 % 10)
          from fun v => by simp [parseStep, parseDigit_digitChar]]
      congr 1
      have h1 : n % 10 % 10 = n % 10 := by omega
      have h2 : 10 * (n / 10) + n % 10 = n := by omega
      rw [h1, pow_succ]
      generalize (10 : Nat) ^ (natDigitsBE (n / 10)).length = P
      calc 10 * (a * P + n / 10) + n % 10
          = a * (P * 10) + (10 * (n / 10) + n % 10) := by ring
        _ = a * (P * 10) + n := by rw [h2]

theorem foldl_parseStep_replicate (j : Nat) :
    ∀ a : Nat, List.foldl parseStep (some a) (List.replicate j '0')
      = some (a * 10 ^ j) := by
  induction j with
  | zero => simp
  | succ j ih =>
    intro a
    rw [List.replicate_succ, List.foldl_cons]
    rw [show parseStep (some a) '0' = some (10 * a)
        from by simp [parseStep, parseDigit]]
    rw [ih]
    congr 1
    ring

theorem natChars_ne_nil (n : Nat) : natChars n ≠ [] := by
  unfold natChars
  simp [natDigitsBE_ne_nil]

theorem parseNatChars_padChars (k n : Nat) :
    parseNatChars (padChars k n) = some n := by
  obtain ⟨c, cs, hcs⟩ : ∃ c cs, padChars k n = c :: cs := by
    cases hp : padChars k n with
    | nil =>
      exfalso
      unfold padChars at hp
      exact natChars_ne_nil n (List.append_eq_nil.mp hp).2
    | cons c cs => exact ⟨c, cs, rfl⟩
  rw [hcs, show parseNatChars (c :: cs) = (c :: cs).foldl parseStep (some 0)
    from rfl, ← hcs]
  unfold padChars
  rw [List.foldl_append, foldl_parseStep_replicate]
  simp only [Nat.zero_mul]
  unfold natChars
  rw [foldl_parseStep_natDigitsBE]
  simp

theorem padChars_no_dash (k n : Nat) : ∀ c ∈ padChars k n, c ≠ '-' := by
  intro c hc
  unfold padChars at hc
  rcases List.mem_append.mp hc with h | h
  · rw [List.eq_of_mem_replicate h]
    decide
  · unfold natChars at h
    rcases List.mem_map.mp h with ⟨d, _, hd⟩
    rw [← hd]
    exact digitChar_ne_dash d

theorem splitOnDash_append (a rest : List Char) (h : ∀ c ∈ a, c ≠ '-') :
    splitOnDash (a ++ '-' :: rest) = a :: splitOnDash rest := by
  induction a with
  | nil => simp [splitOnDash]
  | cons c cs ih =>
    have hc : c ≠ '-' := h c (by simp)
    have hcs : ∀ x ∈ cs, x ≠ '-' := fun x hx => h x (by simp [hx])
    rw [List.cons_append]
    conv_lhs => unfold splitOnDash
    rw [if_neg hc, ih hcs]

theorem splitOnDash_no_dash (a : List Char) (h : ∀ c ∈ a, c ≠ '-') :
    splitOnDash a = [a] := by
  induction a with
  | nil => rfl
  | cons c cs ih =>
    have hc : c ≠ '-' := h c (by simp)
    have hcs : ∀ x ∈ cs, x ≠ '-' := fun x hx => h x (by simp [hx])
    simp only [splitOnDash, if_neg hc, ih hcs]

/-- Decoding the rendered ISO string of a day number recovers exactly its
civil date. -/
theorem parseIso_isoString (z : Nat) :
    parseIsoDate (isoString z) = some (civilFromDays z) := by
  have hdata : (isoString z).data
      = padChars 4 (civilFromDays z).year
        ++ '-' :: (padChars 2 (civilFromDays z).month
          ++ '-' :: padChars 2 (civilFromDays z).day) := by
    rw [show (isoString z).data
        = (padChars 4 (civilFromDays z).year
            ++ '-' :: padChars 2 (civilFromDays z).month)
          ++ '-' :: padChars 2 (civilFromDays z).day from rfl]
    rw [List.append_assoc]
    rfl
  unfold parseIsoDate
  rw [hdata,
    splitOnDash_append _ _ (padChars_no_dash 4 (civilFromDays z).year),
    splitOnDash_append _ _ (padChars_no_dash 2 (civilFromDays z).month),
    splitOnDash_no_dash _ (padChars_no_dash 2 (civilFromDays z).day)]
  simp [parseNatChars_padChars]

/-- The deduplicated, ascending-sorted date list underlying the wire
format is strictly sorted (sorted with no duplicates). -/
theorem sortedMissing_sorted (dates : List Nat) :
    List.Sorted (· < ·) (sortedMissing dates) := by
  have hs : List.Sorted (· ≤ ·) (sortedMissing dates) :=
    List.sorted_insertionSort _ _
  have hn : (sortedMissing dates).Nodup :=
    ((List.perm_insertionSort _ _).nodup_iff).mpr dates.nodup_dedup
  exact hs.lt_of_le hn

/-- C7: for every input date set, the missing-data wire format is built
from the deduplicated, strictly-ascending date list; each entry carries the
ISO `YYYY-MM-DD` string and the `"Weekday, Nth Month"` display string of
its date; decoding the ISO strings recovers exactly the same ordered list
of civil dates; and the date 2024-01-13 (day number 739203) renders as
`"2024-01-13"` with display `"Saturday, 13th January"` — the ordinal
suffix of 13 is `th`. -/
theorem missingDaysWireFormat :
    (∀ dates : List Nat,
      List.Sorted (· < ·) (sortedMissing dates) ∧
      formatMissing dates
        = (sortedMissing dates).map (fun z => ⟨isoString z, format_date z⟩) ∧
      (formatMissing dates).map (fun e => parseIsoDate e.date)
        = (sortedMissing dates).map (fun z => some (civilFromDays z))) ∧
    formatMissing [739203] = [⟨"2024-01-13", "Saturday, 13th January"⟩] := by
  constructor
  · intro dates
    refine ⟨sortedMissing_sorted dates, rfl, ?_⟩
    simp only [formatMissing, List.map_map]
    apply List.map_congr_left
    intro z _
    simp [Function.comp, parseIso_isoString]
  · decide

/-- C8: a missing-data request with a scope outside the seven recognized
scope strings returns an empty missing-days list rather than failing; and
on a completely empty history every operation returns empty or neutral
results — the missing-data scan is empty for every scope, all current and
longest streaks are 0, the steps extrema and yesterday values are null,
and the weight history is empty.  All embedded operations are total, so no
stored-data state raises an error. -/
theorem emptyAndUnknownScopeNeutral :
    (∀ (db : List DailyData) (today : Nat) (scope : String),
      scope ∉ (["dashboard", "calories", "steps", "weight", "cardio",
        "strength", "physio"] : List String) →
      get_missing_data db today scope = []) ∧
    (∀ (today : Nat) (scope : String), get_missing_data [] today scope = []) ∧
    (∀ y : Nat,
      stepsCurrentStreak [] y = 0 ∧ cardioCurrentStreak [] y = 0 ∧
      physioCurrentStreak [] y = 0 ∧ yesterdaySteps [] y = (none, none) ∧
      physioCurrentActive [] y = none) ∧
    stepsLongestStreak [] = (0, none) ∧
    cardioLongestStreak [] = (0, none) ∧
    physioLongestStreak [] = (0, none) ∧
    highestSteps [] = (none, none) ∧
    weightHistory [] = [] := by
  refine ⟨?_, ?_, ?_, by decide, by decide, by decide, by decide, by decide⟩
  · intro db today scope hscope
    simp only [List.mem_cons, List.not_mem_nil, or_false, not_or] at hscope
    obtain ⟨h1, h2, h3, h4, h5, h6, h7⟩ := hscope
    rcases hm : minDate db with _ | fd
    · simp [get_missing_data, hm]
    · simp [get_missing_data, hm, h1, h2, h3, h4, h5, h6, h7, formatMissing,
        sortedMissing, List.insertionSort]
  · intro today scope
    simp [get_missing_data, minDate]
  · intro y
    refine ⟨?_, ?_, ?_, ?_, ?_⟩ <;>
      simp [stepsCurrentStreak, stepsCurGo, cardioCurrentStreak, cardioCurGo,
        physioCurrentStreak, physioCurGo, yesterdaySteps, physioCurrentActive,
        lookupDate]

theorem emptyAndUnknownScopeNeutral_witness :
    get_missing_data [emptyRow 3] 9 "bogus" = [] :=
  emptyAndUnknownScopeNeutral.1 [emptyRow 3] 9 "bogus" (by decide)
